import Mathlib

/-!
Verification of the instructions-file synchronization engine of the
`rcfiles` repository (`.dev_scripts/dev.py`).

Documents are modelled as `List Char` (Python `str`).  The Python string
primitives used by the engine (`splitlines(keepends=True)`, `strip()`,
`rstrip()`, `replace('\r\n', '\n')`, substring membership, `startswith`)
are given executable translations below, and the merge/sync functions
(`parse_sections`, `section_merge`, `try_git_merge`,
`merge_copilot_instructions_to_repoconfig`,
`apply_copilot_instructions_to_workspace`) are translated from the source.

Two external collaborators of `try_git_merge` are not part of the
repository and are abstracted as explicit inputs:
* the `difflib.SequenceMatcher` opcodes (Python standard library): passed
  in as a `List Opcode`; the semantic guarantee of the matcher that is
  relevant here — ranges tagged `equal` denote genuinely equal slices —
  is captured by the predicate `ValidOpcodes`;
* the `git merge-file` subprocess: passed in as a `GitOutcome`
  (exit code and stdout, or the exceptional outcomes caught by the
  source's `except` clauses).
-/

/-- Python `str.isspace` / whitespace set used by `strip()`. -/
def pyIsSpace (c : Char) : Bool :=
  c = ' ' || c = '\t' || c = '\n' || c = '\r' || c = '\x0b' || c = '\x0c' ||
  c = '\x1c' || c = '\x1d' || c = '\x1e' || c = '\x1f' || c = '\x85' ||
  c = '\xa0' || c = ' ' ||
  (0x2000 ≤ c.toNat && c.toNat ≤ 0x200a) ||
  c = ' ' || c = ' ' || c = ' ' || c = ' ' || c = '　'

/-- Line-break characters recognized by Python `str.splitlines`. -/
def isPyLineBreak (c : Char) : Bool :=
  c = '\n' || c = '\r' || c = '\x0b' || c = '\x0c' ||
  c = '\x1c' || c = '\x1d' || c = '\x1e' || c = '\x85' ||
  c = ' ' || c = ' '

/-- Worker for `pySplitKeepends`; `acc` holds the current line reversed. -/
def splitKeepAux : List Char → List Char → List (List Char)
  | [], acc => if acc = [] then [] else [acc.reverse]
  | '\r' :: '\n' :: rest, acc => (acc.reverse ++ ['\r', '\n']) :: splitKeepAux rest []
  | c :: rest, acc =>
      if isPyLineBreak c then (acc.reverse ++ [c]) :: splitKeepAux rest []
      else splitKeepAux rest (c :: acc)

/-- Python `s.splitlines(keepends=True)`. -/
def pySplitKeepends (l : List Char) : List (List Char) :=
  splitKeepAux l []

/-- Python `s.rstrip()` (no argument: strips trailing whitespace). -/
def pyRstrip (l : List Char) : List Char :=
  (l.reverse.dropWhile pyIsSpace).reverse

/-- Python `s.strip()` (no argument: strips whitespace on both ends). -/
def pyStrip (l : List Char) : List Char :=
  pyRstrip (l.dropWhile pyIsSpace)

/-- Python `s.replace('\r\n', '\n')` — the normalization used for
document equality comparison (left-to-right, non-overlapping). -/
def replaceCRLF : List Char → List Char
  | [] => []
  | [c] => [c]
  | a :: b :: rest =>
      if a = '\r' ∧ b = '\n' then '\n' :: replaceCRLF rest
      else a :: replaceCRLF (b :: rest)

/-- Python `s.startswith(p)`: `p` is an initial segment of `l`. -/
def leadsWith : List Char → List Char → Bool
  | [], _ => true
  | _ :: _, [] => false
  | a :: as, b :: bs => a = b && leadsWith as bs

/-- Python `needle in hay` (substring membership). -/
def containsSeq (needle : List Char) : List Char → Bool
  | [] => needle.isEmpty
  | c :: rest => leadsWith needle (c :: rest) || containsSeq needle rest

/-- Python `''.join(parts)`. -/
def concatAll (parts : List (List Char)) : List Char :=
  parts.foldr (· ++ ·) []

/-- Python `dict` assignment `d[k] = v`: replaces the value in place when
the key exists (keeping its original position), else appends. -/
def dictInsert (d : List (List Char × List Char)) (k v : List Char) :
    List (List Char × List Char) :=
  match d with
  | [] => [(k, v)]
  | (k', v') :: rest =>
      if k' = k then (k, v) :: rest else (k', v') :: dictInsert rest k v

/-- Python `d.get(k, default)` on an insertion-ordered dict. -/
def dictGet (d : List (List Char × List Char)) (k : List Char) : Option (List Char) :=
  match d with
  | [] => none
  | (k', v) :: rest => if k' = k then some v else dictGet rest k

/-- The seven-character opening conflict marker `<<<<<<<`. -/
def marker7 : List Char := "<<<<<<<".data

/-- The key used for content before the first `## ` header. -/
def preambleKey : List Char := "__preamble__".data

/-- The `## ` header-line test of `parse_sections` (`line.startswith('## ')`). -/
def isHeaderLine (l : List Char) : Bool :=
  leadsWith "## ".data l

/-- Worker for `parse_sections`: walks the (keepends) lines, accumulating
`curLines` for the open section under key `curHeader`, flushing into the
insertion-ordered dict `secs` on every header line and at the end. -/
def parseSectionsAux :
    List (List Char) → List Char → List (List Char) →
    List (List Char × List Char) → List (List Char × List Char)
  | [], curHeader, curLines, secs =>
      if curLines = [] then secs else dictInsert secs curHeader (concatAll curLines)
  | l :: ls, curHeader, curLines, secs =>
      if isHeaderLine l then
        let secs' := if curLines = [] then secs
                     else dictInsert secs curHeader (concatAll curLines)
        parseSectionsAux ls (pyStrip l) [l] secs'
      else
        parseSectionsAux ls curHeader (curLines ++ [l]) secs

/-- `parse_sections` from `section_merge` in `dev.py`: splits a markdown
document into an insertion-ordered mapping from section key (the stripped
`## ` header line, or `__preamble__`) to section text. -/
def parse_sections (content : List Char) : List (List Char × List Char) :=
  parseSectionsAux (pySplitKeepends content) preambleKey [] []

/-- The keys of a parsed document, in insertion order. -/
def sectionKeys (content : List Char) : List (List Char) :=
  (parse_sections content).map Prod.fst

/-- The union of section keys built by `section_merge`: first-seen order,
`src` (repoconfig/canonical) keys first (`for h in list(src) + list(dest)`
guarded by a `seen` set). -/
def all_headers (src dest : List Char) : List (List Char) :=
  (sectionKeys src ++ sectionKeys dest).foldl
    (fun acc h => if h ∈ acc then acc else acc ++ [h]) []

/-- The conflict block emitted by `section_merge` for a key present on
both sides with differing non-empty content. -/
def conflictBlock (srcSec destSec : List Char) : List Char :=
  "<<<<<<< repoconfig\n".data ++ pyRstrip srcSec ++ "\n=======\n".data ++
  pyRstrip destSec ++ "\n>>>>>>> workspace\n\n".data

/-- The per-key body of `section_merge`'s loop: returns the emitted part
and whether this key raised the conflict flag. -/
def emitSection (srcSecs destSecs : List (List Char × List Char)) (h : List Char) :
    List Char × Bool :=
  let srcSec := (dictGet srcSecs h).getD []
  let destSec := (dictGet destSecs h).getD []
  if pyRstrip srcSec = pyRstrip destSec then
    (if destSec ≠ [] then destSec else srcSec, false)
  else if pyStrip srcSec = [] then (destSec, false)
  else if pyStrip destSec = [] then (srcSec, false)
  else (conflictBlock srcSec destSec, true)

/-- The list of `(part, conflict?)` pairs produced by `section_merge`'s
loop, one per key of the union list. -/
def sectionParts (srcContent destContent : List Char) : List (List Char × Bool) :=
  (all_headers srcContent destContent).map
    (emitSection (parse_sections srcContent) (parse_sections destContent))

/-- `section_merge(src_content, dest_content)` from `dev.py`: structural
markdown merge by `## ` sections; returns the merged content
(`''.join(merged_parts)`) and the accumulated conflict flag. -/
def section_merge (srcContent destContent : List Char) : List Char × Bool :=
  (concatAll ((sectionParts srcContent destContent).map Prod.fst),
   (sectionParts srcContent destContent).any Prod.snd)

/-- A complete embedded conflict-marker triple: an opening `<<<<<<<`
line, a `=======` line and a closing `>>>>>>>` line, with content
between them. -/
def ContainsMarkerTriple (s : List Char) : Prop :=
  ∃ x y, ("<<<<<<< repoconfig\n".data ++ x ++ "\n=======\n".data ++ y ++
    "\n>>>>>>> workspace\n\n".data) <:+: s

/-- Opcode tags of `difflib.SequenceMatcher.get_opcodes()`. -/
inductive OpTag where
  | equal | replace | delete | insert
deriving DecidableEq, Repr

/-- One opcode `(tag, i1, i2, j1, j2)` of the sequence matcher. -/
structure Opcode where
  tag : OpTag
  i1 : Nat
  i2 : Nat
  j1 : Nat
  j2 : Nat
deriving DecidableEq, Repr

/-- Python slice `l[a:b]` (for the non-negative indices used here). -/
def sliceList (l : List (List Char)) (a b : Nat) : List (List Char) :=
  (l.drop a).take (b - a)

/-- The semantic guarantee of `difflib.SequenceMatcher` that the proofs
rely on: every range tagged `equal` really denotes equal line slices of
the two inputs. -/
def ValidOpcodes (src dest : List Char) (ops : List Opcode) : Prop :=
  ∀ op ∈ ops, op.tag = OpTag.equal →
    sliceList (pySplitKeepends src) op.i1 op.i2 =
    sliceList (pySplitKeepends dest) op.j1 op.j2

instance (src dest : List Char) (ops : List Opcode) :
    Decidable (ValidOpcodes src dest ops) := by
  unfold ValidOpcodes; infer_instance

/-- The implied common ancestor reconstructed by `try_git_merge`:
`base_lines.extend(src_lines[i1:i2])` for every `equal` opcode, joined. -/
def computeBase (ops : List Opcode) (srcLines : List (List Char)) : List Char :=
  concatAll (ops.foldl
    (fun acc op => if op.tag = OpTag.equal then acc ++ sliceList srcLines op.i1 op.i2 else acc)
    [])

/-- Outcome of the external `git merge-file` subprocess call inside
`try_git_merge`'s `try` block: a completed run (return code and stdout),
`FileNotFoundError` (git absent), or any other raised exception
(e.g. an I/O error while preparing the temporary files). -/
inductive GitOutcome where
  | ran (rc : Int) (out : List Char)
  | fileNotFound
  | raised
deriving DecidableEq, Repr

/-- `try_git_merge(src_content, dest_content)` from `dev.py`, with the
sequence-matcher opcodes and the subprocess outcome as explicit inputs.
Returns `(merged_content, has_conflicts)`, where `none` models Python's
`None` (the `Unavailable` result). -/
def try_git_merge (ops : List Opcode) (git : GitOutcome) (srcContent destContent : List Char) :
    Option (List Char) × Bool :=
  let srcLines := pySplitKeepends srcContent
  let _destLines := pySplitKeepends destContent
  let baseContent := computeBase ops srcLines
  if pyStrip baseContent = [] then (none, false)
  else
    match git with
    | .fileNotFound => (none, false)
    | .raised => (none, false)
    | .ran rc out =>
        if rc < 0 then (none, false)
        else (some out, decide (rc > 0) || containsSeq marker7 out)

/-- The merge step of `merge_copilot_instructions_to_repoconfig`:
`try_git_merge`, falling back to `section_merge` when it returns `None`. -/
def captureMerge (ops : List Opcode) (git : GitOutcome) (srcContent destContent : List Char) :
    List Char × Bool :=
  match try_git_merge ops git srcContent destContent with
  | (none, _) => section_merge srcContent destContent
  | (some m, hc) => (m, hc)

/-- The two synchronized file locations: `canonical` is the repoconfig
copy (`CONFIG_DIR / 'copilot-instructions.md'`), `workspace` the
machine-local copy (`base_path / '.github' / 'copilot-instructions.md'`).
`none` models a missing file; a write produces `some`. -/
structure SyncState where
  canonical : Option (List Char)
  workspace : Option (List Char)
deriving DecidableEq, Repr

/-- Branch taken by `merge_copilot_instructions_to_repoconfig`
(the source prints nothing and returns `None` in every branch; the
status names which branch ran and whether the canonical file was written). -/
inductive CaptureStatus where
  | noWorkspaceFile
  | alreadyInSync
  | copiedFromWorkspace
  | emptyWorkspace
  | merged (hasConflicts : Bool) (wrote : Bool)
deriving DecidableEq, Repr

/-- `merge_copilot_instructions_to_repoconfig` from `dev.py` (the
"capture" direction, workspace → canonical), as a state transformer. -/
def merge_copilot_instructions_to_repoconfig (ops : List Opcode) (git : GitOutcome)
    (s : SyncState) : SyncState × CaptureStatus :=
  match s.workspace with
  | none => (s, .noWorkspaceFile)
  | some destContent =>
      let srcContent := s.canonical.getD []
      if replaceCRLF srcContent = replaceCRLF destContent then (s, .alreadyInSync)
      else if pyStrip srcContent = [] then
        ({ s with canonical := some destContent }, .copiedFromWorkspace)
      else if pyStrip destContent = [] then (s, .emptyWorkspace)
      else
        let mh := captureMerge ops git srcContent destContent
        if mh.1 = [] then (s, .merged mh.2 false)
        else ({ s with canonical := some mh.1 }, .merged mh.2 true)

/-- A capture outcome that changed nothing: no workspace file, contents
already in sync, or a whitespace-only workspace that is skipped. -/
def CaptureNoChange (st : CaptureStatus) : Prop :=
  st = CaptureStatus.noWorkspaceFile ∨ st = CaptureStatus.alreadyInSync ∨
  st = CaptureStatus.emptyWorkspace

/-- Status reported by `apply_copilot_instructions_to_workspace`
(`skipped` is the silent fall-through when both sides are
unequal but whitespace-only). -/
inductive ApplyStatus where
  | upToDate
  | blockedByConflict
  | syncedToWorkspace
  | syncedFromWorkspace
  | skipped
deriving DecidableEq, Repr

/-- `apply_copilot_instructions_to_workspace` from `dev.py` (the "apply"
direction, canonical → workspace), as a state transformer.  The
`mkdir(parents=True)` call only affects directories, not the two file
contents, and is not modelled. -/
def apply_copilot_instructions_to_workspace (s : SyncState) : SyncState × ApplyStatus :=
  let srcContent := s.canonical.getD []
  let destContent := s.workspace.getD []
  if replaceCRLF srcContent = replaceCRLF destContent then (s, .upToDate)
  else if containsSeq marker7 srcContent || containsSeq marker7 destContent then
    (s, .blockedByConflict)
  else if pyStrip srcContent ≠ [] then
    ({ s with workspace := some srcContent }, .syncedToWorkspace)
  else if pyStrip destContent ≠ [] then
    ({ s with canonical := some destContent }, .syncedFromWorkspace)
  else (s, .skipped)

/-- A fenced-code-block delimiter line: trimmed content starts with a
triple backtick. -/
def isFenceLine (l : List Char) : Bool :=
  leadsWith "```".data (pyStrip l)

/-- A marker line per the detector contract: starts with one of the three
seven-character sequences; the opening and closing markers must be
followed by nothing or by whitespace (the label follows that whitespace). -/
def isRealMarkerLine (l : List Char) : Bool :=
  if leadsWith marker7 l then markerTailOk (l.drop 7)
  else if leadsWith ">>>>>>>".data l then markerTailOk (l.drop 7)
  else leadsWith "=======".data l
where
  markerTailOk : List Char → Bool
    | [] => true
    | c :: _ => pyIsSpace c

/-- Modelled from the spec: the Conflict Detector
`hasRealConflictMarkers` (§4.1) is absent from `dev.py` even though
`test_dev.py` exercises it as `dev.has_real_conflict_markers`; this
definition follows the spec's contract.  Scans lines with a fence toggle;
lines inside a fenced block and lines containing a backtick anywhere are
exempt; remaining lines are real markers per `isRealMarkerLine`. -/
def has_real_conflict_markers (content : List Char) : Bool :=
  scanLines (pySplitKeepends content) false
where
  scanLines : List (List Char) → Bool → Bool
    | [], _ => false
    | l :: ls, inFence =>
        if isFenceLine l then scanLines ls (!inFence)
        else if inFence then scanLines ls inFence
        else if l.contains '`' then scanLines ls inFence
        else if isRealMarkerLine l then true
        else scanLines ls inFence

/-! ## Supporting lemmas -/

/-- `concatAll` distributes over cons. -/
lemma concatAll_cons (x : List Char) (xs : List (List Char)) :
    concatAll (x :: xs) = x ++ concatAll xs := rfl

/-- A member of the part list is an infix of the joined output. -/
lemma mem_concatAll {x : List Char} {xs : List (List Char)} (h : x ∈ xs) :
    x <:+: concatAll xs := by
  induction xs with
  | nil => cases h
  | cons y ys ih =>
      rcases List.mem_cons.mp h with rfl | hmem
      · exact ⟨[], concatAll ys, by simp [concatAll_cons]⟩
      · rcases ih hmem with ⟨p, q, hpq⟩
        exact ⟨y ++ p, q, by simp [concatAll_cons, ← hpq]⟩

/-- Reference "keep the first occurrence" deduplication. -/
def firstSeenDedup : List (List Char) → List (List Char)
  | [] => []
  | x :: xs => x :: firstSeenDedup (xs.filter (fun y => y ≠ x))
termination_by l => l.length
decreasing_by
  simp only [List.length_cons]
  exact Nat.lt_succ_of_le (List.length_filter_le _ _)

/-- Membership in `firstSeenDedup` is membership in the original list. -/
lemma mem_firstSeenDedup {a : List Char} :
    ∀ {l : List (List Char)}, a ∈ firstSeenDedup l ↔ a ∈ l := by
  intro l
  induction l using firstSeenDedup.induct with
  | case1 => simp [firstSeenDedup]
  | case2 x xs ih =>
      rw [firstSeenDedup]
      by_cases hax : a = x
      · subst hax; simp
      · simp only [List.mem_cons, ih, List.mem_filter, hax, false_or,
          decide_eq_true_eq, ne_eq]
        tauto

/-- The seen-set guarded fold of `section_merge` computes
`firstSeenDedup`, relative to an arbitrary accumulator. -/
lemma foldl_seen_eq (l acc : List (List Char)) :
    l.foldl (fun acc h => if h ∈ acc then acc else acc ++ [h]) acc
      = acc ++ firstSeenDedup (l.filter (fun y => y ∉ acc)) := by
  induction l generalizing acc with
  | nil => simp [firstSeenDedup]
  | cons x xs ih =>
      simp only [List.foldl_cons]
      by_cases hx : x ∈ acc
      · rw [if_pos hx, ih]
        have : (x :: xs).filter (fun y => y ∉ acc) = xs.filter (fun y => y ∉ acc) := by
          simp [List.filter_cons, hx]
        rw [this]
      · rw [if_neg hx, ih]
        have h1 : (x :: xs).filter (fun y => y ∉ acc)
            = x :: xs.filter (fun y => y ∉ acc) := by
          simp [List.filter_cons, hx]
        have h2 : xs.filter (fun y => y ∉ acc ++ [x])
            = (xs.filter (fun y => y ∉ acc)).filter (fun y => y ≠ x) := by
          rw [List.filter_filter]
          apply List.filter_congr
          intro y _
          simp only [List.mem_append, List.mem_singleton]
          by_cases h3 : y ∈ acc <;> by_cases h4 : y = x <;> simp [h3, h4]
        rw [h1, firstSeenDedup, ← h2]
        simp

/-- `all_headers` is the first-seen deduplication of canonical keys
followed by workspace keys. -/
lemma all_headers_eq (src dest : List Char) :
    all_headers src dest = firstSeenDedup (sectionKeys src ++ sectionKeys dest) := by
  unfold all_headers
  rw [foldl_seen_eq]
  simp [List.filter_eq_self]

/-- Every key of either side is in the union list. -/
lemma mem_all_headers {k : List Char} {src dest : List Char}
    (h : k ∈ sectionKeys src ∨ k ∈ sectionKeys dest) :
    k ∈ all_headers src dest := by
  rw [all_headers_eq, mem_firstSeenDedup, List.mem_append]
  exact h

/-- `pyRstrip` is empty exactly on all-whitespace strings. -/
lemma pyRstrip_eq_nil_iff {l : List Char} :
    pyRstrip l = [] ↔ ∀ c ∈ l, pyIsSpace c := by
  unfold pyRstrip
  rw [List.reverse_eq_nil_iff, List.dropWhile_eq_nil_iff]
  constructor
  · intro h c hc
    exact h c (List.mem_reverse.mpr hc)
  · intro h c hc
    exact h c (List.mem_reverse.mp hc)

/-- `pyStrip` is empty exactly on all-whitespace strings. -/
lemma pyStrip_eq_nil_iff {l : List Char} :
    pyStrip l = [] ↔ ∀ c ∈ l, pyIsSpace c := by
  unfold pyStrip
  rw [pyRstrip_eq_nil_iff]
  constructor
  · intro h c hc
    by_cases hsp : pyIsSpace c
    · exact hsp
    · have : c ∈ l.dropWhile pyIsSpace := by
        have := List.takeWhile_append_dropWhile (p := pyIsSpace) (l := l)
        rcases List.mem_append.mp (by rw [this]; exact hc) with hmem | hmem
        · exact absurd (List.mem_takeWhile_imp hmem) hsp
        · exact hmem
      exact h c this
  · intro h c hc
    exact h c (List.dropWhile_sublist (p := pyIsSpace) (l := l) |>.subset hc)

/-- Normalization preserves "all characters are whitespace" in both
directions (the characters it removes are carriage returns). -/
lemma replaceCRLF_allWS {l : List Char} :
    (∀ c ∈ replaceCRLF l, pyIsSpace c) ↔ (∀ c ∈ l, pyIsSpace c) := by
  induction l using replaceCRLF.induct with
  | case1 => simp [replaceCRLF]
  | case2 c => simp [replaceCRLF]
  | case3 a b rest hab ih =>
      obtain ⟨rfl, rfl⟩ := hab
      rw [replaceCRLF, if_pos ⟨rfl, rfl⟩]
      constructor
      · intro h c hc
        rcases List.mem_cons.mp hc with rfl | hc
        · decide
        · rcases List.mem_cons.mp hc with rfl | hc
          · decide
          · exact ih.mp (fun c hc => h c (List.mem_cons_of_mem _ hc)) c hc
      · intro h c hc
        rcases List.mem_cons.mp hc with rfl | hc
        · decide
        · exact ih.mpr (fun c hc => h c (List.mem_cons_of_mem _ (List.mem_cons_of_mem _ hc))) c hc
  | case4 a b rest hab ih =>
      rw [replaceCRLF, if_neg hab]
      constructor
      · intro h c hc
        rcases List.mem_cons.mp hc with rfl | hc
        · exact h c (List.mem_cons_self _ _)
        · exact ih.mp (fun c hc => h c (List.mem_cons_of_mem _ hc)) c hc
      · intro h c hc
        rcases List.mem_cons.mp hc with rfl | hc
        · exact h c (List.mem_cons_self _ _)
        · exact ih.mpr (fun c hc => h c (List.mem_cons_of_mem _ hc)) c hc

/-- A whitespace-only document and a document with non-whitespace
content have different normalized forms. -/
lemma replaceCRLF_ne_of_strip {src dest : List Char}
    (hsrc : pyStrip src = []) (hdest : pyStrip dest ≠ []) :
    replaceCRLF src ≠ replaceCRLF dest := by
  intro heq
  apply hdest
  rw [pyStrip_eq_nil_iff]
  rw [pyStrip_eq_nil_iff] at hsrc
  have hsrc' : ∀ c ∈ replaceCRLF src, pyIsSpace c := replaceCRLF_allWS.mpr hsrc
  rw [heq] at hsrc'
  exact replaceCRLF_allWS.mp hsrc'

/-- If every `equal` opcode contributes an empty slice, the base fold
leaves its accumulator unchanged. -/
lemma foldl_equal_slices_nil (g : Opcode → List (List Char)) :
    ∀ (ops : List Opcode), (∀ op ∈ ops, op.tag = OpTag.equal → g op = []) →
    ∀ acc : List (List Char),
      ops.foldl (fun acc op => if op.tag = OpTag.equal then acc ++ g op else acc) acc = acc := by
  intro ops
  induction ops with
  | nil => intro _ _; rfl
  | cons op rest ih =>
      intro h acc
      simp only [List.foldl_cons]
      by_cases htag : op.tag = OpTag.equal
      · rw [if_pos htag, h op (List.mem_cons_self _ _) htag, List.append_nil]
        exact ih (fun o ho ht => h o (List.mem_cons_of_mem _ ho) ht) acc
      · rw [if_neg htag]
        exact ih (fun o ho ht => h o (List.mem_cons_of_mem _ ho) ht) acc

/-- Under a valid matcher, two line sequences with no common line
reconstruct a base that strips to nothing. -/
lemma computeBase_strip_nil {src dest : List Char} {ops : List Opcode}
    (hv : ValidOpcodes src dest ops)
    (hno : ∀ l ∈ pySplitKeepends src, l ∉ pySplitKeepends dest) :
    pyStrip (computeBase ops (pySplitKeepends src)) = [] := by
  have hslices : ∀ op ∈ ops, op.tag = OpTag.equal →
      sliceList (pySplitKeepends src) op.i1 op.i2 = [] := by
    intro op hop htag
    by_contra hne
    rcases List.exists_mem_of_ne_nil _ hne with ⟨l, hl⟩
    have hlsrc : l ∈ pySplitKeepends src := by
      have h1 : l ∈ (pySplitKeepends src).drop op.i1 := List.mem_of_mem_take (by
        simpa [sliceList] using hl)
      exact (List.drop_subset _ _) h1
    have hldest : l ∈ pySplitKeepends dest := by
      have := hv op hop htag
      rw [this] at hl
      have h1 : l ∈ (pySplitKeepends dest).drop op.j1 := List.mem_of_mem_take (by
        simpa [sliceList] using hl)
      exact (List.drop_subset _ _) h1
    exact hno l hlsrc hldest
  unfold computeBase
  rw [foldl_equal_slices_nil _ ops hslices []]
  rfl

/-- When the reconstructed base strips to nothing, `try_git_merge`
returns `Unavailable` without consulting the subprocess. -/
lemma tgm_base_empty {ops : List Opcode} {git : GitOutcome} {src dest : List Char}
    (h : pyStrip (computeBase ops (pySplitKeepends src)) = []) :
    try_git_merge ops git src dest = (none, false) := by
  unfold try_git_merge
  rw [if_pos h]

/-- When the reconstructed base strips to nothing, the capture merge is
the section merge (the fallback fires). -/
lemma captureMerge_base_empty {ops : List Opcode} {git : GitOutcome} {src dest : List Char}
    (h : pyStrip (computeBase ops (pySplitKeepends src)) = []) :
    captureMerge ops git src dest = section_merge src dest := by
  unfold captureMerge
  rw [tgm_base_empty h]

/-- A successful dict lookup witnesses key membership. -/
lemma dictGet_mem {d : List (List Char × List Char)} {k v : List Char}
    (h : dictGet d k = some v) : k ∈ d.map Prod.fst := by
  induction d with
  | nil => simp [dictGet] at h
  | cons p rest ih =>
      unfold dictGet at h
      by_cases hk : p.1 = k
      · simp [hk]
      · rw [if_neg hk] at h
        exact List.mem_cons_of_mem _ (ih h)

/-- A part with a raised conflict flag is a conflict block. -/
lemma emitSection_snd_true {a b : List (List Char × List Char)} {h : List Char}
    (ht : (emitSection a b h).2 = true) :
    (emitSection a b h).1 =
      conflictBlock ((dictGet a h).getD []) ((dictGet b h).getD []) := by
  unfold emitSection at ht ⊢
  dsimp only at ht ⊢
  split_ifs at ht ⊢ with h1 h2 h3
  rfl

/-- The conflict branch of `section_merge`'s loop, under its exact
conditions. -/
lemma emitSection_eq_conflict {a b : List (List Char × List Char)} {k s d : List Char}
    (hs : dictGet a k = some s) (hd : dictGet b k = some d)
    (hne : pyRstrip s ≠ pyRstrip d) (hs2 : pyStrip s ≠ []) (hd2 : pyStrip d ≠ []) :
    emitSection a b k = (conflictBlock s d, true) := by
  unfold emitSection
  rw [hs, hd]
  simp only [Option.getD_some]
  rw [if_neg hne, if_neg hs2, if_neg hd2]

/-- Branch characterization of the capture direction at a present
workspace file. -/
lemma capture_char (ops : List Opcode) (git : GitOutcome) (c : Option (List Char))
    (A : List Char) :
    merge_copilot_instructions_to_repoconfig ops git ⟨c, some A⟩ =
      (if replaceCRLF (c.getD []) = replaceCRLF A then ((⟨c, some A⟩ : SyncState), .alreadyInSync)
       else if pyStrip (c.getD []) = [] then ((⟨some A, some A⟩ : SyncState), .copiedFromWorkspace)
       else if pyStrip A = [] then ((⟨c, some A⟩ : SyncState), .emptyWorkspace)
       else if (captureMerge ops git (c.getD []) A).1 = [] then
         ((⟨c, some A⟩ : SyncState), .merged (captureMerge ops git (c.getD []) A).2 false)
       else ((⟨some (captureMerge ops git (c.getD []) A).1, some A⟩ : SyncState),
         .merged (captureMerge ops git (c.getD []) A).2 true)) := rfl

/-- Branch characterization of the apply direction. -/
lemma apply_char (c w : Option (List Char)) :
    apply_copilot_instructions_to_workspace ⟨c, w⟩ =
      (if replaceCRLF (c.getD []) = replaceCRLF (w.getD []) then
         ((⟨c, w⟩ : SyncState), .upToDate)
       else if containsSeq marker7 (c.getD []) || containsSeq marker7 (w.getD []) then
         ((⟨c, w⟩ : SyncState), .blockedByConflict)
       else if pyStrip (c.getD []) ≠ [] then
         ((⟨c, some (c.getD [])⟩ : SyncState), .syncedToWorkspace)
       else if pyStrip (w.getD []) ≠ [] then
         ((⟨some (w.getD []), w⟩ : SyncState), .syncedFromWorkspace)
       else ((⟨c, w⟩ : SyncState), .skipped)) := rfl


/-! ## Claims -/

/-- Claim C1 (code-bug evidence): the capture direction is required to
perform no writes and report a blocking condition when the workspace
document contains real conflict markers, but
`merge_copilot_instructions_to_repoconfig` has no conflict gate at all:
on the workspace content of `test_merge_skips_when_workspace_has_conflicts`
it merges and overwrites the canonical file (the conflict content is even
appended after the preamble), for any valid matcher output and any git
outcome. -/
theorem claim_C1_code_bug (ops : List Opcode) (git : GitOutcome)
    (hv : ValidOpcodes "original".data
      "## Section\n<<<<<<< HEAD\nVersion A\n=======\nVersion B\n>>>>>>> branch\n".data ops) :
    has_real_conflict_markers
      "## Section\n<<<<<<< HEAD\nVersion A\n=======\nVersion B\n>>>>>>> branch\n".data = true ∧
    (merge_copilot_instructions_to_repoconfig ops git
        ⟨some "original".data,
         some "## Section\n<<<<<<< HEAD\nVersion A\n=======\nVersion B\n>>>>>>> branch\n".data⟩).1.canonical =
      some "original## Section\n<<<<<<< HEAD\nVersion A\n=======\nVersion B\n>>>>>>> branch\n".data ∧
    ("original## Section\n<<<<<<< HEAD\nVersion A\n=======\nVersion B\n>>>>>>> branch\n".data : List Char)
      ≠ "original".data := by
  refine ⟨by decide, ?_, by decide⟩
  have hbase : pyStrip (computeBase ops (pySplitKeepends "original".data)) = [] :=
    computeBase_strip_nil hv (by decide)
  have hcm := @captureMerge_base_empty ops git "original".data
    "## Section\n<<<<<<< HEAD\nVersion A\n=======\nVersion B\n>>>>>>> branch\n".data hbase
  rw [capture_char]
  simp only [Option.getD_some]
  rw [hcm]
  decide

/-- Witness for C1: a concrete matcher output (one `replace` opcode, as
`difflib` yields for these two line sequences with no common line) under
which the capture call overwrites the canonical file. -/
theorem claim_C1_witness :
    ValidOpcodes "original".data
      "## Section\n<<<<<<< HEAD\nVersion A\n=======\nVersion B\n>>>>>>> branch\n".data
      [⟨OpTag.replace, 0, 1, 0, 6⟩] ∧
    (merge_copilot_instructions_to_repoconfig [⟨OpTag.replace, 0, 1, 0, 6⟩] GitOutcome.fileNotFound
        ⟨some "original".data,
         some "## Section\n<<<<<<< HEAD\nVersion A\n=======\nVersion B\n>>>>>>> branch\n".data⟩).1.canonical =
      some "original## Section\n<<<<<<< HEAD\nVersion A\n=======\nVersion B\n>>>>>>> branch\n".data :=
  ⟨by decide, (claim_C1_code_bug [⟨OpTag.replace, 0, 1, 0, 6⟩] GitOutcome.fileNotFound (by decide)).2.1⟩

/-- Claim C2, amended: when `section_merge` reports a conflict its output
contains a complete embedded marker triple, and when `try_git_merge`
returns a merge result with the conflict flag false, that result contains
no `<<<<<<<` opening marker.  (The original claim's "flag false implies no
real conflict markers" direction fails for `section_merge`; see the
counterexample.) -/
theorem claim_C2_amended (src dest : List Char) (ops : List Opcode) (git : GitOutcome) :
    ((section_merge src dest).2 = true → ContainsMarkerTriple (section_merge src dest).1) ∧
    (∀ m, try_git_merge ops git src dest = (some m, false) → containsSeq marker7 m = false) := by
  constructor
  · intro hflag
    have hex : ∃ p ∈ sectionParts src dest, p.2 = true := by
      simpa [section_merge, List.any_eq_true] using hflag
    obtain ⟨p, hmem, hp⟩ := hex
    obtain ⟨k, hk, hpk⟩ := List.mem_map.mp hmem
    rw [← hpk] at hp
    have hblock := emitSection_snd_true hp
    have hfstmem : p.1 ∈ (sectionParts src dest).map Prod.fst :=
      List.mem_map_of_mem Prod.fst hmem
    have hinf := mem_concatAll hfstmem
    refine ⟨pyRstrip ((dictGet (parse_sections src) k).getD []),
            pyRstrip ((dictGet (parse_sections dest) k).getD []), ?_⟩
    have : p.1 = conflictBlock ((dictGet (parse_sections src) k).getD [])
        ((dictGet (parse_sections dest) k).getD []) := by
      rw [← hpk]; exact hblock
    rw [this] at hinf
    exact hinf
  · intro m h
    unfold try_git_merge at h
    by_cases hb : pyStrip (computeBase ops (pySplitKeepends src)) = []
    · rw [if_pos hb] at h
      simp at h
    · rw [if_neg hb] at h
      cases git with
      | fileNotFound => simp at h
      | raised => simp at h
      | ran rc out =>
          dsimp only at h
          by_cases hrc : rc < 0
          · rw [if_pos hrc] at h
            simp at h
          · rw [if_neg hrc] at h
            simp only [Prod.mk.injEq, Option.some.injEq] at h
            obtain ⟨rfl, h2⟩ := h
            simp only [Bool.or_eq_false_iff] at h2
            exact h2.2

/-- Counterexample for C2 as stated: feeding a workspace-only section
that itself consists of conflict-marker lines, `section_merge` returns
conflict flag `false` while its merged output contains real conflict
markers (per the detector contract). -/
theorem claim_C2_counterexample :
    (section_merge "## A\nx\n".data "## Z\n<<<<<<< HEAD\nA\n=======\nB\n>>>>>>> b\n".data).2 = false ∧
    has_real_conflict_markers
      (section_merge "## A\nx\n".data "## Z\n<<<<<<< HEAD\nA\n=======\nB\n>>>>>>> b\n".data).1 = true :=
  ⟨by decide, by decide⟩

/-- Witness for C2: a concrete conflicted section merge whose output
contains a complete marker triple. -/
theorem claim_C2_witness :
    ContainsMarkerTriple (section_merge "## A\nX\n".data "## A\nY\n".data).1 :=
  (claim_C2_amended "## A\nX\n".data "## A\nY\n".data [] GitOutcome.raised).1 (by decide)

/-- Claim C3 (code-bug evidence): a document whose only marker occurrence
sits on a backtick line is not classified as a real conflict by the
detector contract, yet the apply direction's plain substring check
(`'<<<<<<<' in src_content`) blocks the sync on it with no writes. -/
theorem claim_C3_code_bug :
    has_real_conflict_markers "See `<<<<<<<` markers, resolve them.\n".data = false ∧
    apply_copilot_instructions_to_workspace
        ⟨some "See `<<<<<<<` markers, resolve them.\n".data, some "other\n".data⟩ =
      (⟨some "See `<<<<<<<` markers, resolve them.\n".data, some "other\n".data⟩,
        ApplyStatus.blockedByConflict) :=
  ⟨by decide, by decide⟩

/-- Claim C4: for workspace document `A` and canonical document `B`,
neither containing real conflict markers, if the capture merge raises no
conflict flag and the subsequent apply call is not blocked, then after
capture followed by apply the canonical and workspace contents are
normalized-equal. -/
theorem claim_C4 (A B : List Char) (ops : List Opcode) (git : GitOutcome)
    (_hmA : has_real_conflict_markers A = false)
    (_hmB : has_real_conflict_markers B = false)
    (_hcap : ∀ hc w, (merge_copilot_instructions_to_repoconfig ops git ⟨some B, some A⟩).2 =
      CaptureStatus.merged hc w → hc = false)
    (happ : (apply_copilot_instructions_to_workspace
      (merge_copilot_instructions_to_repoconfig ops git ⟨some B, some A⟩).1).2 ≠
      ApplyStatus.blockedByConflict) :
    replaceCRLF ((apply_copilot_instructions_to_workspace
        (merge_copilot_instructions_to_repoconfig ops git ⟨some B, some A⟩).1).1.canonical.getD []) =
    replaceCRLF ((apply_copilot_instructions_to_workspace
        (merge_copilot_instructions_to_repoconfig ops git ⟨some B, some A⟩).1).1.workspace.getD []) := by
  rw [capture_char] at happ ⊢
  simp only [Option.getD_some] at happ ⊢
  by_cases h1 : replaceCRLF B = replaceCRLF A
  · rw [if_pos h1] at happ ⊢
    dsimp only at happ ⊢
    rw [apply_char]
    simp only [Option.getD_some]
    rw [if_pos h1]
    exact h1
  · rw [if_neg h1] at happ ⊢
    by_cases h2 : pyStrip B = []
    · rw [if_pos h2] at happ ⊢
      dsimp only at happ ⊢
      rw [apply_char]
      simp
    · rw [if_neg h2] at happ ⊢
      by_cases h3 : pyStrip A = []
      · rw [if_pos h3] at happ ⊢
        dsimp only at happ ⊢
        rw [apply_char] at happ ⊢
        simp only [Option.getD_some] at happ ⊢
        rw [if_neg h1] at happ ⊢
        by_cases h4 : (containsSeq marker7 B || containsSeq marker7 A) = true
        · rw [if_pos h4] at happ
          dsimp only at happ
          exact absurd rfl happ
        · rw [if_neg h4]
          rw [if_pos h2]
      · rw [if_neg h3] at happ ⊢
        by_cases h4 : (captureMerge ops git B A).1 = []
        · rw [if_pos h4] at happ ⊢
          dsimp only at happ ⊢
          rw [apply_char] at happ ⊢
          simp only [Option.getD_some] at happ ⊢
          rw [if_neg h1] at happ ⊢
          by_cases h5 : (containsSeq marker7 B || containsSeq marker7 A) = true
          · rw [if_pos h5] at happ
            dsimp only at happ
            exact absurd rfl happ
          · rw [if_neg h5]
            rw [if_pos h2]
        · rw [if_neg h4] at happ ⊢
          dsimp only at happ ⊢
          rw [apply_char] at happ ⊢
          simp only [Option.getD_some] at happ ⊢
          by_cases h5 : replaceCRLF (captureMerge ops git B A).1 = replaceCRLF A
          · rw [if_pos h5]
            exact h5
          · rw [if_neg h5] at happ ⊢
            by_cases h6 : (containsSeq marker7 (captureMerge ops git B A).1 ||
                containsSeq marker7 A) = true
            · rw [if_pos h6] at happ
              dsimp only at happ
              exact absurd rfl happ
            · rw [if_neg h6]
              by_cases h7 : pyStrip (captureMerge ops git B A).1 = []
              · rw [if_neg (not_not.mpr h7), if_pos h3]
              · rw [if_pos h7]

/-- Witness for C4: a concrete conflict-free cycle (two disjoint
single-section documents, merged by the section fallback) that converges. -/
theorem claim_C4_witness :
    has_real_conflict_markers "## B\nY\n".data = false ∧
    (apply_copilot_instructions_to_workspace
      (merge_copilot_instructions_to_repoconfig [] GitOutcome.fileNotFound
        ⟨some "## A\nX\n".data, some "## B\nY\n".data⟩).1).2 ≠
      ApplyStatus.blockedByConflict ∧
    replaceCRLF ((apply_copilot_instructions_to_workspace
        (merge_copilot_instructions_to_repoconfig [] GitOutcome.fileNotFound
          ⟨some "## A\nX\n".data, some "## B\nY\n".data⟩).1).1.canonical.getD []) =
    replaceCRLF ((apply_copilot_instructions_to_workspace
        (merge_copilot_instructions_to_repoconfig [] GitOutcome.fileNotFound
          ⟨some "## A\nX\n".data, some "## B\nY\n".data⟩).1).1.workspace.getD []) := by
  refine ⟨by decide, by decide, ?_⟩
  refine claim_C4 "## B\nY\n".data "## A\nX\n".data [] GitOutcome.fileNotFound
    (by decide) (by decide) ?_ (by decide)
  intro hc w hEq
  rw [show (merge_copilot_instructions_to_repoconfig [] GitOutcome.fileNotFound
      ⟨some "## A\nX\n".data, some "## B\nY\n".data⟩).2 = CaptureStatus.merged false true
    by decide] at hEq
  injection hEq with h1 h2
  exact h1.symm

/-- Claim C5: whenever the base reconstructed from the matcher's `equal`
ranges is empty or whitespace-only, `try_git_merge` returns `Unavailable`
(`(None, False)`), and the capture-side merge therefore falls back to the
section merger. -/
theorem claim_C5 (src dest : List Char) (ops : List Opcode) (git : GitOutcome)
    (h : pyStrip (computeBase ops (pySplitKeepends src)) = []) :
    try_git_merge ops git src dest = (none, false) ∧
    captureMerge ops git src dest = section_merge src dest :=
  ⟨tgm_base_empty h, captureMerge_base_empty h⟩

/-- Witness for C5: with no `equal` opcodes the base is empty, so the
three-way merger is unavailable. -/
theorem claim_C5_witness :
    pyStrip (computeBase [] (pySplitKeepends "alpha\n".data)) = [] ∧
    try_git_merge [] GitOutcome.raised "alpha\n".data "beta\n".data = (none, false) :=
  ⟨by decide, (claim_C5 "alpha\n".data "beta\n".data [] GitOutcome.raised (by decide)).1⟩

/-- Claim C6: `section_merge` is total by construction (a Lean `def`
with no partiality); its key-union list is exactly the first-seen
deduplication of canonical keys followed by workspace keys, every key of
either side (the synthetic preamble key included) is in that list, and
the merged output is the concatenation of the per-key parts in that
order. -/
theorem claim_C6 (src dest : List Char) :
    all_headers src dest = firstSeenDedup (sectionKeys src ++ sectionKeys dest) ∧
    (∀ k, k ∈ sectionKeys src ∨ k ∈ sectionKeys dest → k ∈ all_headers src dest) ∧
    (section_merge src dest).1 = concatAll ((sectionParts src dest).map Prod.fst) :=
  ⟨all_headers_eq src dest, fun _ hk => mem_all_headers hk, rfl⟩

/-- Witness for C6: a workspace-only key is present in the union list. -/
theorem claim_C6_witness :
    "## B".data ∈ all_headers "## A\nX\n".data "## B\nY\n".data :=
  (claim_C6 "## A\nX\n".data "## B\nY\n".data).2.1 "## B".data (Or.inr (by decide))

/-- Claim C7, amended: when the same key holds different non-empty
content on the two sides (content compared after `rstrip`), the merged
output embeds the conflict block for that key — labeled `repoconfig`,
not `canonical` as the claim states — and the result is conflicted. -/
theorem claim_C7_amended (src dest k s d : List Char)
    (hs : dictGet (parse_sections src) k = some s)
    (hd : dictGet (parse_sections dest) k = some d)
    (hne : pyRstrip s ≠ pyRstrip d)
    (hs2 : pyStrip s ≠ []) (hd2 : pyStrip d ≠ []) :
    (section_merge src dest).2 = true ∧
    conflictBlock s d <:+: (section_merge src dest).1 := by
  have hk : k ∈ all_headers src dest := mem_all_headers (Or.inl (dictGet_mem hs))
  have hemit := emitSection_eq_conflict hs hd hne hs2 hd2
  have hpmem : emitSection (parse_sections src) (parse_sections dest) k ∈
      sectionParts src dest := List.mem_map_of_mem _ hk
  constructor
  · exact List.any_eq_true.mpr ⟨_, hpmem, by rw [hemit]⟩
  · have hfst : (emitSection (parse_sections src) (parse_sections dest) k).1 ∈
        (sectionParts src dest).map Prod.fst := List.mem_map_of_mem _ hpmem
    have hinf := mem_concatAll hfst
    rw [hemit] at hinf
    exact hinf

/-- Counterexample for C7 as stated: on the spec's own scenario the
merged output contains no `<<<<<<< canonical` label; the opening marker
is labeled `repoconfig`. -/
theorem claim_C7_counterexample :
    (section_merge "## A\nX\n".data "## A\nY\n".data).2 = true ∧
    containsSeq "<<<<<<< canonical".data
      (section_merge "## A\nX\n".data "## A\nY\n".data).1 = false ∧
    containsSeq "<<<<<<< repoconfig".data
      (section_merge "## A\nX\n".data "## A\nY\n".data).1 = true :=
  ⟨by decide, by decide, by decide⟩

/-- Witness for C7: the spec's divergent-section scenario embeds the
(`repoconfig`-labeled) conflict block. -/
theorem claim_C7_witness :
    conflictBlock "## A\nX\n".data "## A\nY\n".data <:+:
      (section_merge "## A\nX\n".data "## A\nY\n".data).1 :=
  (claim_C7_amended "## A\nX\n".data "## A\nY\n".data "## A".data
    "## A\nX\n".data "## A\nY\n".data (by decide) (by decide) (by decide)
    (by decide) (by decide)).2

/-- Claim C8, amended: a second capture run changes nothing provided the
first run did not take the merge-and-write branch — i.e. it found no
workspace file, found the contents already normalized-equal, replaced a
whitespace-only canonical by the workspace content, or skipped a
whitespace-only workspace.  (When the first run merges, the second run
re-merges and can write again; see the counterexample.) -/
theorem claim_C8_amended (ops1 ops2 : List Opcode) (git1 git2 : GitOutcome) (s : SyncState)
    (h : ∀ hc w, (merge_copilot_instructions_to_repoconfig ops1 git1 s).2 ≠
      CaptureStatus.merged hc w) :
    (merge_copilot_instructions_to_repoconfig ops2 git2
        (merge_copilot_instructions_to_repoconfig ops1 git1 s).1).1 =
      (merge_copilot_instructions_to_repoconfig ops1 git1 s).1 ∧
    CaptureNoChange (merge_copilot_instructions_to_repoconfig ops2 git2
        (merge_copilot_instructions_to_repoconfig ops1 git1 s).1).2 := by
  obtain ⟨c, w⟩ := s
  cases w with
  | none => exact ⟨rfl, Or.inl rfl⟩
  | some A =>
      rw [capture_char] at h ⊢
      by_cases h1 : replaceCRLF (c.getD []) = replaceCRLF A
      · rw [if_pos h1] at h ⊢
        dsimp only
        rw [capture_char, if_pos h1]
        exact ⟨rfl, Or.inr (Or.inl rfl)⟩
      · rw [if_neg h1] at h ⊢
        by_cases h2 : pyStrip (c.getD []) = []
        · rw [if_pos h2] at h ⊢
          dsimp only
          rw [capture_char]
          simp only [Option.getD_some]
          rw [if_pos trivial]
          exact ⟨rfl, Or.inr (Or.inl rfl)⟩
        · rw [if_neg h2] at h ⊢
          by_cases h3 : pyStrip A = []
          · rw [if_pos h3] at h ⊢
            dsimp only
            rw [capture_char, if_neg h1, if_neg h2, if_pos h3]
            exact ⟨rfl, Or.inr (Or.inr rfl)⟩
          · rw [if_neg h3] at h
            exfalso
            by_cases h4 : (captureMerge ops1 git1 (c.getD []) A).1 = []
            · rw [if_pos h4] at h
              exact h _ false rfl
            · rw [if_neg h4] at h
              exact h _ true rfl

/-- Counterexample for C8 as stated: with canonical `"## K\nX\n"` and
workspace `"## K "` the first capture writes a conflict block to the
canonical file, and a second capture run with no intervening edits writes
a different canonical content again (the duplicate `## K` key produced by
the first merge is re-parsed and re-conflicted).  Both runs take the
section-merge fallback: for either input pair the line sequences share no
line, so any valid matcher yields an empty base, as witnessed by the
`ValidOpcodes` conjuncts for the single `replace` opcode `difflib`
produces. -/
theorem claim_C8_counterexample :
    ValidOpcodes "## K\nX\n".data "## K ".data [⟨OpTag.replace, 0, 2, 0, 1⟩] ∧
    ValidOpcodes "<<<<<<< repoconfig\n## K\nX\n=======\n## K\n>>>>>>> workspace\n\n".data
      "## K ".data [⟨OpTag.replace, 0, 7, 0, 1⟩] ∧
    (merge_copilot_instructions_to_repoconfig [⟨OpTag.replace, 0, 2, 0, 1⟩]
        GitOutcome.fileNotFound ⟨some "## K\nX\n".data, some "## K ".data⟩).1.canonical =
      some "<<<<<<< repoconfig\n## K\nX\n=======\n## K\n>>>>>>> workspace\n\n".data ∧
    (merge_copilot_instructions_to_repoconfig [⟨OpTag.replace, 0, 7, 0, 1⟩]
        GitOutcome.fileNotFound
        (merge_copilot_instructions_to_repoconfig [⟨OpTag.replace, 0, 2, 0, 1⟩]
          GitOutcome.fileNotFound
          ⟨some "## K\nX\n".data, some "## K ".data⟩).1).1.canonical ≠
      (merge_copilot_instructions_to_repoconfig [⟨OpTag.replace, 0, 2, 0, 1⟩]
        GitOutcome.fileNotFound ⟨some "## K\nX\n".data, some "## K ".data⟩).1.canonical :=
  ⟨by decide, by decide, by decide, by decide⟩

/-- Witness for C8: starting from equal contents, the first capture
reports already-in-sync and the second changes nothing. -/
theorem claim_C8_witness :
    (∀ hc w, (merge_copilot_instructions_to_repoconfig [] GitOutcome.raised
      ⟨some "x\n".data, some "x\n".data⟩).2 ≠ CaptureStatus.merged hc w) ∧
    (merge_copilot_instructions_to_repoconfig [] GitOutcome.raised
        (merge_copilot_instructions_to_repoconfig [] GitOutcome.raised
          ⟨some "x\n".data, some "x\n".data⟩).1).1 =
      (merge_copilot_instructions_to_repoconfig [] GitOutcome.raised
        ⟨some "x\n".data, some "x\n".data⟩).1 :=
  ⟨by decide,
   (claim_C8_amended [] [] GitOutcome.raised GitOutcome.raised
      ⟨some "x\n".data, some "x\n".data⟩ (by decide)).1⟩

/-- Claim C9: `try_git_merge` maps every exceptional or failing outcome
of the external merge primitive — `FileNotFoundError`, any other raised
exception, and a negative return code — to `Unavailable` (`(None,
False)`) instead of propagating the failure; as a Lean `def` it is total
for every outcome. -/
theorem claim_C9 (src dest : List Char) (ops : List Opcode) :
    try_git_merge ops GitOutcome.fileNotFound src dest = (none, false) ∧
    try_git_merge ops GitOutcome.raised src dest = (none, false) ∧
    ∀ (rc : Int) (out : List Char), rc < 0 →
      try_git_merge ops (GitOutcome.ran rc out) src dest = (none, false) := by
  refine ⟨?_, ?_, fun rc out hrc => ?_⟩ <;>
    unfold try_git_merge <;>
    by_cases h : pyStrip (computeBase ops (pySplitKeepends src)) = []
  · rw [if_pos h]
  · rw [if_neg h]
  · rw [if_pos h]
  · rw [if_neg h]
  · rw [if_pos h]
  · rw [if_neg h]
    dsimp only
    rw [if_pos hrc]

/-- Witness for C9: a concrete negative return code yields
`Unavailable`. -/
theorem claim_C9_witness :
    ((-1 : Int) < 0) ∧
    try_git_merge [] (GitOutcome.ran (-1) "boom".data) "a\nb\n".data "a\nc\n".data =
      (none, false) :=
  ⟨by decide, (claim_C9 "a\nb\n".data "a\nc\n".data []).2.2 (-1) "boom".data (by decide)⟩

/-- Claim C10: in the apply direction, when the canonical file is missing
or whitespace-only, the workspace content is non-whitespace, and neither
content contains the `<<<<<<<` substring, the workspace content is
written back to the canonical file and the workspace file is left
unchanged (the apply direction can write canonical-ward). -/
theorem claim_C10 (s : SyncState) (d : List Char)
    (hw : s.workspace = some d)
    (hcan : pyStrip (s.canonical.getD []) = [])
    (hd : pyStrip d ≠ [])
    (hms : containsSeq marker7 (s.canonical.getD []) = false)
    (hmd : containsSeq marker7 d = false) :
    apply_copilot_instructions_to_workspace s =
      ({ s with canonical := some d }, ApplyStatus.syncedFromWorkspace) := by
  obtain ⟨c, w⟩ := s
  dsimp only at hw hcan hms
  subst hw
  rw [apply_char]
  simp only [Option.getD_some] at hms hmd ⊢
  rw [if_neg (replaceCRLF_ne_of_strip hcan hd)]
  rw [if_neg (by simp [hms, hmd] :
    ¬(containsSeq marker7 (c.getD []) || containsSeq marker7 d) = true)]
  rw [if_neg (not_not.mpr hcan), if_pos hd]

/-- Witness for C10: a missing canonical file and a non-empty workspace
document; apply writes the workspace content to canonical. -/
theorem claim_C10_witness :
    pyStrip ((none : Option (List Char)).getD []) = [] ∧
    pyStrip "hello\n".data ≠ [] ∧
    apply_copilot_instructions_to_workspace ⟨none, some "hello\n".data⟩ =
      (⟨some "hello\n".data, some "hello\n".data⟩, ApplyStatus.syncedFromWorkspace) :=
  ⟨by decide, by decide,
   claim_C10 ⟨none, some "hello\n".data⟩ "hello\n".data rfl (by decide) (by decide)
     (by decide) (by decide)⟩
